import Mathlib

/-!
Verification development for the Booth shop-blocker extension.

The embedding models the two source modules that the claims are about:

* the content script (`extractShopId`, `getShopIdFromItemCard`,
  `hideItemCard`, `showItemCard`, `processItemCard`, the
  `MutationObserver` pipeline of `observeNewItems` and the
  `browser.storage.onChanged` reconciler of `observeStorageChanges`);
* the storage module `BoothShopStorage` (`getAllBlocked`, `blockShop`,
  `unblockShop`, `updateReason`).

JavaScript objects keyed by shop id are modelled as association lists with
JS-object update semantics (an existing key keeps its position, a fresh key
is appended, `delete` removes the key).  Nullable values (`string|null`,
`undefined`) are modelled as `Option`.  The browser persistence layer
(`browser.storage.local`) is modelled as a record holding the value stored
under the `blockedShops` key together with two failure flags saying whether
a `get` or a `set` call throws; a thrown call is the only error source the
source code catches.
-/

/-- A stored block entry: `{ name, reason, timestamp }` (the shop id is the
object key, kept separately). -/
structure ShopRecord where
  name : String
  reason : String
  timestamp : Nat
deriving DecidableEq, Repr

/-- The persisted `blockedShops` object: a JS object mapping shop ids to
records, modelled as an association list with JS key semantics. -/
abbrev Blocklist := List (String × ShopRecord)

/-- JS `shopId in blockedShops`: key membership. -/
def keyIn (k : String) (b : Blocklist) : Bool :=
  b.any (fun p => p.1 == k)

/-- JS property read `blocked[shopId]` (as `Option`; `undefined` is `none`). -/
def objGet (b : Blocklist) (k : String) : Option ShopRecord :=
  (b.find? (fun p => p.1 == k)).map (fun p => p.2)

/-- JS property write `blocked[shopId] = v`: an existing key keeps its
position, a fresh key is appended. -/
def objSet (b : Blocklist) (k : String) (v : ShopRecord) : Blocklist :=
  if keyIn k b then b.map (fun p => if p.1 == k then (k, v) else p)
  else b ++ [(k, v)]

/-- JS `delete blocked[shopId]`. -/
def objDelete (b : Blocklist) (k : String) : Blocklist :=
  b.filter (fun p => !(p.1 == k))

/-- JS `blocked[shopId].reason = reason`: in-place field update of the record
stored under `k` (no-op when the key is absent, though the source only
reaches this after a presence check). -/
def objUpdateReason (b : Blocklist) (k : String) (reason : String) : Blocklist :=
  b.map (fun p => if p.1 == k then (p.1, { p.2 with reason := reason }) else p)

/-- Model of `browser.storage.local` as seen through the single key
`blockedShops`: the stored value (`none` when the key was never set) and
whether `get` / `set` calls throw. -/
structure StorageLocal where
  data : Option Blocklist
  getFails : Bool
  setFails : Bool
deriving DecidableEq, Repr

namespace BoothShopStorage

/-- Source `getAllBlocked`: reads the stored object under the key and
defaults to the empty object.  A throwing `get` is caught and yields the
empty object; a missing key also yields the empty object via the
or-else-empty fallback. -/
def getAllBlocked (st : StorageLocal) : Blocklist :=
  if st.getFails then [] else st.data.getD []

/-- Source `isBlocked`: key membership in the object read by
`getAllBlocked`. -/
def isBlocked (st : StorageLocal) (shopId : String) : Bool :=
  keyIn shopId (getAllBlocked st)

/-- Source `blockShop`: reads the current object through
`getAllBlocked` (which absorbs read failures itself), stores a fresh record
under `shopId` (overwriting any existing one) and writes the object back.
`Date.now()` is passed in as `now`.  A throwing `set` is caught: the call
returns `false` and the persisted value is unchanged. -/
def blockShop (st : StorageLocal) (shopId : String) (shopName : String)
    (reason : String) (now : Nat) : StorageLocal × Bool :=
  let blocked := getAllBlocked st
  let blocked := objSet blocked shopId ⟨shopName, reason, now⟩
  if st.setFails then (st, false) else ({ st with data := some blocked }, true)

/-- Source `unblockShop`: reads the current object, deletes the key and
writes the object back; `delete` on an absent key is a silent no-op in JS.
A throwing `set` is caught: returns `false`, persisted value unchanged. -/
def unblockShop (st : StorageLocal) (shopId : String) : StorageLocal × Bool :=
  let blocked := getAllBlocked st
  let blocked := objDelete blocked shopId
  if st.setFails then (st, false) else ({ st with data := some blocked }, true)

/-- Source `getShopInfo`: the record stored under the id, or null. -/
def getShopInfo (st : StorageLocal) (shopId : String) : Option ShopRecord :=
  objGet (getAllBlocked st) shopId

/-- Source `updateReason`: when the record stored under the id is truthy (a
record object, hence: present), updates only its `reason` field, writes the
object back and returns `true`; otherwise returns `false` without writing.
A throwing `set` is caught: returns `false`, persisted value unchanged. -/
def updateReason (st : StorageLocal) (shopId : String) (reason : String) :
    StorageLocal × Bool :=
  let blocked := getAllBlocked st
  match objGet blocked shopId with
  | some _ =>
    let blocked := objUpdateReason blocked shopId reason
    if st.setFails then (st, false) else ({ st with data := some blocked }, true)
  | none => (st, false)

end BoothShopStorage

/-! ## DOM model of the content script

An `.item-card` element, viewed through the fields the content script
touches: the shop-name anchor found under the selector
`.item-card__shop-name-anchor` (`none` when the anchor is absent) together
with its `href` attribute (`getAttribute` may return `null`), and the
attributes and inline style the script reads and writes. -/

structure ItemCard where
  /-- Lookup result for the selector `.item-card__shop-name-anchor`, with
  the `href` attribute of the anchor when present. -/
  shopLink : Option (Option String)
  /-- presence of the `data-shop-blocker-processed` attribute. -/
  processed : Bool
  /-- the `data-shop-id` attribute (`none` when absent). -/
  shopId : Option String
  /-- presence of the `data-blocked-shop` attribute. -/
  blocked : Bool
  /-- the inline `style.display` value (the empty string when unset). -/
  display : String
deriving DecidableEq, Repr

/-- Valid characters of a URL scheme after its first letter. -/
def isSchemeChar (c : Char) : Bool :=
  c.isAlpha || c.isDigit || c == '+' || c == '-' || c == '.'

/-- The part of an authority component after the last `@` (the whole
component when it holds no user info). -/
def afterLastAtSign (l : List Char) : List Char :=
  (l.reverse.takeWhile (fun c => c != '@')).reverse

/-- Model of `new URL(url).hostname` for the inputs the extension meets:
an absolute URL `scheme://authority/...` yields its host (user info and
port stripped, ASCII-lowercased as the URL parser does); an absolute URL
without the `//` authority marker has the empty hostname; a string with no
valid scheme prefix makes the constructor throw, modelled as `none` (the
relative and malformed cases). -/
def jsURLHostname (url : String) : Option String :=
  let cs := url.toList
  let scheme := cs.takeWhile (fun c => c != ':')
  match cs.dropWhile (fun c => c != ':') with
  | [] => none
  | _ :: afterColon =>
    match scheme with
    | [] => none
    | c0 :: rest =>
      if c0.isAlpha && rest.all isSchemeChar then
        match afterColon with
        | '/' :: '/' :: tail =>
          let authority := tail.takeWhile (fun c => !(c == '/' || c == '?' || c == '#'))
          let host := (afterLastAtSign authority).takeWhile (fun c => c != ':')
          some (String.mk (host.map Char.toLower))
        | _ => some ""
      else none

/-- Split a character list at every dot (the label decomposition of a
hostname, mirroring what the anchored regex sees). -/
def splitAtDots : List Char → List (List Char)
  | [] => [[]]
  | c :: rest =>
    match splitAtDots rest with
    | [] => if c == '.' then [[], []] else [[c]]
    | h :: t => if c == '.' then [] :: h :: t else (c :: h) :: t

/-- The hostname regex `^([^.]+)\.booth\.pm$`: the capture group when the
hostname is exactly one non-empty dot-free label followed by `.booth.pm`. -/
def hostMatch (hostname : String) : Option String :=
  match splitAtDots hostname.toList with
  | [id, l1, l2] =>
    if l1 == "booth".toList && l2 == "pm".toList && !id.isEmpty then
      some (String.mk id)
    else none
  | _ => none

/-- Source `extractShopId`: null, undefined and the empty string are falsy
and rejected by
the `!url` guard; otherwise the URL is parsed (a throwing constructor is
caught and falls through to `null`), the hostname is matched against
`^([^.]+)\.booth\.pm$`, and the captured subdomain is returned unless it is
the reserved `accounts` or `www`. -/
def extractShopId (url : Option String) : Option String :=
  match url with
  | none => none
  | some u =>
    if u == "" then none
    else
      match jsURLHostname u with
      | none => none
      | some hostname =>
        match hostMatch hostname with
        | none => none
        | some id => if id == "accounts" || id == "www" then none else some id

/-- Source `getShopIdFromItemCard`: null when the shop-name anchor is
absent, otherwise `extractShopId` of its `href` attribute. -/
def getShopIdFromItemCard (itemCard : ItemCard) : Option String :=
  match itemCard.shopLink with
  | none => none
  | some href => extractShopId href

/-- Source `hideItemCard`: sets the inline display to none and sets the
`data-blocked-shop` attribute. -/
def hideItemCard (itemCard : ItemCard) : ItemCard :=
  { itemCard with display := "none", blocked := true }

/-- Source `showItemCard`: clears the inline display to the empty string
and removes the `data-blocked-shop` attribute. -/
def showItemCard (itemCard : ItemCard) : ItemCard :=
  { itemCard with display := "", blocked := false }

/-- Source `processItemCard`: skip when already marked
processed; otherwise mark processed, resolve the shop id (the `!shopId`
guard also rejects an empty string), record it as `data-shop-id`, and hide
the card when `blockedShops` is truthy and holds the id as a key.
`blockedShops` is `Option`al to model the `blockedShops &&` truthiness
guard. -/
def processItemCard (itemCard : ItemCard) (blockedShops : Option Blocklist) :
    ItemCard :=
  if itemCard.processed then itemCard
  else
    let itemCard := { itemCard with processed := true }
    match getShopIdFromItemCard itemCard with
    | none => itemCard
    | some shopId =>
      if shopId == "" then itemCard
      else
        let itemCard := { itemCard with shopId := some shopId }
        match blockedShops with
        | some bs => if keyIn shopId bs then hideItemCard itemCard else itemCard
        | none => itemCard

/-- The body of the `forEach` in the `storage.onChanged` listener, per
element matched by the selector `.item-card[data-shop-id]`: a card without
the `data-shop-id` attribute is not selected (hence untouched); the
`!shopId` guard skips a falsy attribute value; otherwise visibility is
re-derived from the new blocklist alone. -/
def reconcileItemCard (newBlockedShops : Blocklist) (itemCard : ItemCard) :
    ItemCard :=
  match itemCard.shopId with
  | none => itemCard
  | some shopId =>
    if shopId == "" then itemCard
    else if keyIn shopId newBlockedShops then hideItemCard itemCard
    else showItemCard itemCard

/-- The `{ oldValue, newValue }` entry of a `storage.onChanged` payload for
the `blockedShops` key (either side may be `undefined`). -/
structure StorageChange where
  oldValue : Option Blocklist
  newValue : Option Blocklist
deriving DecidableEq, Repr

/-- The `storage.onChanged` listener installed by `observeStorageChanges`:
returns unchanged unless the area is `local` and the payload has a
`blockedShops` entry; otherwise re-derives every `[data-shop-id]` card from
`newValue || {}`. -/
def storageChangeHandler (areaName : String) (blockedShopsChange : Option StorageChange)
    (cards : List ItemCard) : List ItemCard :=
  match blockedShopsChange with
  | none => cards
  | some ch =>
    if areaName == "local" then
      cards.map (reconcileItemCard (ch.newValue.getD []))
    else cards

/-! ## The mutation pipeline (`observeNewItems`) -/

/-- A node delivered in `MutationRecord.addedNodes`, viewed through what the
observer callback reads: its node type, whether its `classList` contains
`item-card`, the node itself seen as a card, and the `.item-card`
descendants returned by `querySelectorAll`. -/
structure AddedNode where
  isElement : Bool
  hasItemCardClass : Bool
  self : ItemCard
  descendantCards : List ItemCard
deriving Repr

/-- The cards the observer callback discovers in one added node: nothing for
a non-element node; the node itself when its class list has `item-card`,
followed by its `.item-card` descendants. -/
def collectItemCards (n : AddedNode) : List ItemCard :=
  if n.isElement then
    (if n.hasItemCardClass then [n.self] else []) ++ n.descendantCards
  else []

/-- One invocation of the `MutationObserver` callback: `mutations` is the
record list, each with its added nodes; every discovered card is classified
with the (awaited, setup-time) `blockedShops` value of the callback. -/
def handleMutations (blockedShops : Blocklist) (mutations : List (List AddedNode))
    (cards : List ItemCard) : List ItemCard :=
  cards ++ ((mutations.flatten.map collectItemCards).flatten).map
    (fun c => processItemCard c (some blockedShops))

/-- Source `observeNewItems` captures the `getAllBlocked` promise once
at setup; this is the value every later callback awaits. -/
def observeNewItems (st : StorageLocal) : Blocklist :=
  BoothShopStorage.getAllBlocked st

/-- The page-context state relevant to the pipeline: the persisted blocklist
value (shared with other contexts), the snapshot captured at pipeline setup,
and the cards the pipeline has classified. -/
structure PageState where
  persisted : Blocklist
  pipelineSnapshot : Blocklist
  cards : List ItemCard
deriving Repr

/-- The two asynchronous event sources racing against the pipeline: an
external write to the persisted blocklist, and a mutation batch. -/
inductive PageEvent where
  | storageWrite (newValue : Blocklist)
  | mutationBatch (mutations : List (List AddedNode))

/-- One event step: a storage write replaces the persisted value only; a
mutation batch runs the observer callback against the setup-time snapshot
(the promise is never re-created per batch). -/
def pageStep (s : PageState) (e : PageEvent) : PageState :=
  match e with
  | .storageWrite v => { s with persisted := v }
  | .mutationBatch muts =>
    { s with cards := handleMutations s.pipelineSnapshot muts s.cards }

/-- A whole observation session: fold the events over the state. -/
def runPage (s : PageState) (es : List PageEvent) : PageState :=
  es.foldl pageStep s

/-- The cards one event delivers to the pipeline (none for a storage write). -/
def eventCards : PageEvent → List ItemCard
  | .storageWrite _ => []
  | .mutationBatch muts => (muts.flatten.map collectItemCards).flatten

/-! ## Helper lemmas -/

/-- Lemma: `processItemCard` always leaves the processed marker set. -/
theorem processItemCard_processed (c : ItemCard) (b : Option Blocklist) :
    (processItemCard c b).processed = true := by
  unfold processItemCard
  split
  · assumption
  · dsimp only
    split
    · rfl
    · split
      · rfl
      · split
        · split <;> simp [hideItemCard]
        · rfl

/-- Lemma: `processItemCard` is the identity on a card already marked
processed. -/
theorem processItemCard_of_processed (c : ItemCard) (b : Option Blocklist)
    (h : c.processed = true) : processItemCard c b = c := by
  unfold processItemCard
  simp [h]


/-! ## Claim theorems -/

/-- C3: the Card Classifier is idempotent: classifying a card a second time
(even against a different snapshot) returns it unchanged — same visibility
outcome as one classification and no duplicate annotations — because the
first classification always sets the processed marker, also when no shop
link is found or no shop id can be extracted. -/
theorem processItemCard_idempotent (c : ItemCard) (b b2 : Option Blocklist) :
    processItemCard (processItemCard c b) b2 = processItemCard c b ∧
    (processItemCard c b).processed = true :=
  ⟨processItemCard_of_processed _ _ (processItemCard_processed c b),
    processItemCard_processed c b⟩

/-- C6: a card whose shop link yields no identifier (missing link, malformed
URL, or a reserved subdomain) is never hidden by classification: its
display, blocked marker and shop-id annotation are all left unmodified,
whatever the snapshot holds — in particular also when the blocklist has
`accounts` as a key. -/
theorem unresolved_shop_never_hidden (c : ItemCard) (b : Option Blocklist)
    (h : getShopIdFromItemCard c = none) :
    (processItemCard c b).display = c.display ∧
    (processItemCard c b).blocked = c.blocked ∧
    (processItemCard c b).shopId = c.shopId := by
  obtain ⟨link, pr, sid, bl, disp⟩ := c
  unfold processItemCard
  split
  · exact ⟨rfl, rfl, rfl⟩
  · dsimp only
    rw [show getShopIdFromItemCard ⟨link, true, sid, bl, disp⟩ = none from h]
    exact ⟨rfl, rfl, rfl⟩

/-- Witness for C6: a card linking to the reserved `accounts` subdomain
stays fully visible and unannotated even though `accounts` is a key of the
snapshot. -/
theorem unresolved_shop_never_hidden_witness :
    (processItemCard ⟨some (some "https://accounts.booth.pm/settings"), false, none, false, ""⟩
        (some [("accounts", ⟨"A", "", 0⟩)])).display
      = (⟨some (some "https://accounts.booth.pm/settings"), false, none, false, ""⟩ : ItemCard).display ∧
    (processItemCard ⟨some (some "https://accounts.booth.pm/settings"), false, none, false, ""⟩
        (some [("accounts", ⟨"A", "", 0⟩)])).blocked
      = (⟨some (some "https://accounts.booth.pm/settings"), false, none, false, ""⟩ : ItemCard).blocked ∧
    (processItemCard ⟨some (some "https://accounts.booth.pm/settings"), false, none, false, ""⟩
        (some [("accounts", ⟨"A", "", 0⟩)])).shopId
      = (⟨some (some "https://accounts.booth.pm/settings"), false, none, false, ""⟩ : ItemCard).shopId :=
  unresolved_shop_never_hidden
    ⟨some (some "https://accounts.booth.pm/settings"), false, none, false, ""⟩
    (some [("accounts", ⟨"A", "", 0⟩)]) (by decide)

/-- C9: frame property of the per-card reconciler action: only the inline
display value and the blocked marker are ever written; the processed marker,
the shop-id annotation and the shop link are never modified, and a card
carrying no shop-id annotation is returned entirely unchanged. -/
theorem reconciler_frame_property (b : Blocklist) (c : ItemCard) :
    (reconcileItemCard b c).processed = c.processed ∧
    (reconcileItemCard b c).shopId = c.shopId ∧
    (reconcileItemCard b c).shopLink = c.shopLink ∧
    (c.shopId = none → reconcileItemCard b c = c) := by
  obtain ⟨link, pr, sid, bl, disp⟩ := c
  unfold reconcileItemCard
  match sid with
  | none => exact ⟨rfl, rfl, rfl, fun _ => rfl⟩
  | some s =>
    dsimp only
    refine ⟨?_, ?_, ?_, ?_⟩
    · split
      · rfl
      · split <;> rfl
    · split
      · rfl
      · split <;> rfl
    · split
      · rfl
      · split <;> rfl
    · intro hc
      cases hc

/-- Witness for C9: a card without a shop-id annotation is untouched by a
reconciler pass. -/
theorem reconciler_frame_property_witness :
    reconcileItemCard [("x", ⟨"X", "", 0⟩)] ⟨none, true, none, false, "flex"⟩
      = ⟨none, true, none, false, "flex"⟩ :=
  (reconciler_frame_property [("x", ⟨"X", "", 0⟩)] ⟨none, true, none, false, "flex"⟩).2.2.2 rfl

/-- The hostname regex capture group is never the empty string. -/
theorem hostMatch_ne_empty (h id : String) (hm : hostMatch h = some id) :
    id ≠ "" := by
  unfold hostMatch at hm
  split at hm
  · rename_i idl l1 l2 heq
    split at hm
    · rename_i hcond
      rw [Bool.and_eq_true, Bool.and_eq_true] at hcond
      have hne := hcond.2
      injection hm with hmk
      subst hmk
      intro he
      have hl : idl = [] := by simpa using congrArg String.data he
      rw [hl] at hne
      simp at hne
    · cases hm
  · cases hm

/-- A resolved shop id is never the empty string (so the `!shopId` falsy
guards never fire on a resolved id). -/
theorem extractShopId_ne_empty (url : Option String) (s : String)
    (h : extractShopId url = some s) : s ≠ "" := by
  match url with
  | none => cases h
  | some u =>
    unfold extractShopId at h
    dsimp only at h
    by_cases hu : (u == "") = true
    · rw [if_pos hu] at h; cases h
    · rw [if_neg hu] at h
      cases hj : jsURLHostname u with
      | none => rw [hj] at h; cases h
      | some hostname =>
        rw [hj] at h
        dsimp only at h
        cases hmv : hostMatch hostname with
        | none => rw [hmv] at h; cases h
        | some id =>
          rw [hmv] at h
          dsimp only at h
          by_cases hres : (id == "accounts" || id == "www") = true
          · rw [if_pos hres] at h; cases h
          · rw [if_neg hres] at h
            injection h with he
            subst he
            exact hostMatch_ne_empty hostname id hmv

/-- C1: a reconciler pass for a storage change delivered in the `local` area
with a `blockedShops` entry maps every card through the per-card
re-derivation, and every card annotated with a resolved shop id ends the
pass hidden (display `none` plus the blocked marker) exactly when its id is
a key of the new blocklist, and visible (inline display cleared, no marker)
otherwise — for an arbitrary prior card state, hence regardless of which
snapshot classified it or in which order earlier notifications arrived. -/
theorem reconciler_pass_visibility (ch : StorageChange) (cards : List ItemCard) :
    storageChangeHandler "local" (some ch) cards
      = cards.map (reconcileItemCard (ch.newValue.getD [])) ∧
    ∀ c : ItemCard, ∀ s : String, c.shopId = some s →
      (∃ url, extractShopId url = some s) →
      ((keyIn s (ch.newValue.getD []) = true →
          (reconcileItemCard (ch.newValue.getD []) c).display = "none" ∧
          (reconcileItemCard (ch.newValue.getD []) c).blocked = true) ∧
       (keyIn s (ch.newValue.getD []) = false →
          (reconcileItemCard (ch.newValue.getD []) c).display = "" ∧
          (reconcileItemCard (ch.newValue.getD []) c).blocked = false)) := by
  constructor
  · simp [storageChangeHandler]
  · intro c s hs hres
    obtain ⟨url, hurl⟩ := hres
    have hbe : (s == "") = false := by
      simpa using extractShopId_ne_empty url s hurl
    unfold reconcileItemCard
    rw [hs]
    constructor
    · intro hk
      simp [hbe, hk, hideItemCard]
    · intro hk
      simp [hbe, hk, showItemCard]

/-- Witness for C1: a previously hidden card whose shop is in the new
blocklist stays hidden, evaluated on concrete data. -/
theorem reconciler_pass_visibility_witness :
    (reconcileItemCard [("foo", ⟨"Foo", "", 0⟩)]
        ⟨none, true, some "foo", true, "none"⟩).display = "none" ∧
    (reconcileItemCard [("foo", ⟨"Foo", "", 0⟩)]
        ⟨none, true, some "foo", true, "none"⟩).blocked = true := by
  have h := (reconciler_pass_visibility ⟨none, some [("foo", ⟨"Foo", "", 0⟩)]⟩ []).2
      ⟨none, true, some "foo", true, "none"⟩ "foo" rfl
      ⟨some "https://foo.booth.pm/items/123", by decide⟩
  exact h.1 (by decide)

/-- C5 counterexample: a card that was visible through an inline
`display: flex` before its shop was blocked is NOT restored to its original
state by a block pass followed by an unblock pass: `showItemCard` clears the
inline display to the empty string instead of the pre-block value, so the
round trip ends with display `""` rather than `"flex"`. -/
theorem roundtrip_display_counterexample :
    ((⟨some (some "https://x.booth.pm/"), true, some "x", false, "flex"⟩ : ItemCard).blocked
        = false) ∧
    (storageChangeHandler "local" (some ⟨some [("x", ⟨"X", "", 0⟩)], some []⟩)
        (storageChangeHandler "local" (some ⟨some [], some [("x", ⟨"X", "", 0⟩)]⟩)
          [⟨some (some "https://x.booth.pm/"), true, some "x", false, "flex"⟩])
      ≠ [⟨some (some "https://x.booth.pm/"), true, some "x", false, "flex"⟩]) ∧
    ((storageChangeHandler "local" (some ⟨some [("x", ⟨"X", "", 0⟩)], some []⟩)
        (storageChangeHandler "local" (some ⟨some [], some [("x", ⟨"X", "", 0⟩)]⟩)
          [⟨some (some "https://x.booth.pm/"), true, some "x", false, "flex"⟩])).map
        ItemCard.display
      = [""]) := by decide

/-- C5 (amended): for a card tagged with a resolved shop id that was visible
with NO pre-existing inline display value (the empty string, visibility
coming from stylesheet rules) and no blocked marker, a reconciler hide for a
blocklist containing the id followed by a reconciler show for one without it
restores the card exactly to its original state; when the pre-block inline
display was non-empty, the round trip instead ends with the inline display
cleared to the empty string. -/
theorem roundtrip_restores_plain_visible (c : ItemCard) (s : String)
    (b1 b2 : Blocklist) (hs : c.shopId = some s)
    (hres : ∃ url, extractShopId url = some s)
    (h1 : keyIn s b1 = true) (h2 : keyIn s b2 = false)
    (hd : c.display = "") (hb : c.blocked = false) :
    reconcileItemCard b2 (reconcileItemCard b1 c) = c := by
  obtain ⟨url, hurl⟩ := hres
  have hbe : (s == "") = false := by
    simpa using extractShopId_ne_empty url s hurl
  obtain ⟨link, pr, sid, bl, disp⟩ := c
  dsimp at hs hd hb
  subst hs hd hb
  simp [reconcileItemCard, hideItemCard, showItemCard, hbe, h1, h2]

/-- Witness for the amended C5 theorem on concrete data. -/
theorem roundtrip_restores_plain_visible_witness :
    reconcileItemCard [] (reconcileItemCard [("x", ⟨"X", "", 0⟩)]
        ⟨some (some "https://x.booth.pm/"), true, some "x", false, ""⟩)
      = ⟨some (some "https://x.booth.pm/"), true, some "x", false, ""⟩ :=
  roundtrip_restores_plain_visible
    ⟨some (some "https://x.booth.pm/"), true, some "x", false, ""⟩ "x"
    [("x", ⟨"X", "", 0⟩)] [] rfl ⟨some "https://x.booth.pm/", by decide⟩
    (by decide) (by decide) rfl rfl

/-- Unfolding lemma: key membership in a cons cell. -/
theorem keyIn_cons (p : String × ShopRecord) (b : Blocklist) (k : String) :
    keyIn k (p :: b) = ((p.1 == k) || keyIn k b) := rfl

/-- Unfolding lemma: property read on a cons cell. -/
theorem objGet_cons (p : String × ShopRecord) (b : Blocklist) (k : String) :
    objGet (p :: b) k = if p.1 == k then some p.2 else objGet b k := by
  by_cases hp : (p.1 == k) = true
  · simp [objGet, List.find?_cons_of_pos, hp]
  · simp [objGet, List.find?_cons_of_neg, hp]

/-- A key that is not a member reads as `undefined`. -/
theorem objGet_absent (b : Blocklist) (k : String) (h : keyIn k b = false) :
    objGet b k = none := by
  induction b with
  | nil => rfl
  | cons p b ih =>
    rw [keyIn_cons, Bool.or_eq_false_iff] at h
    rw [objGet_cons]
    simp [h.1, ih h.2]

/-- Reading through the in-place overwrite map used by `objSet` on an
existing key. -/
theorem objGet_setMap (b : Blocklist) (k k2 : String) (v : ShopRecord) :
    objGet (b.map (fun p => if p.1 == k then (k, v) else p)) k2
      = if (k2 == k) && keyIn k b then some v else objGet b k2 := by
  induction b with
  | nil => simp [objGet, keyIn]
  | cons p b ih =>
    rw [List.map_cons]
    by_cases hp : p.1 = k <;> by_cases hk : k2 = k <;> by_cases hpk2 : p.1 = k2 <;>
      simp_all [objGet_cons, keyIn_cons]

/-- Reading after appending a fresh binding (the `objSet` branch for an
absent key). -/
theorem objGet_append_single (b : Blocklist) (k k2 : String) (v : ShopRecord) :
    objGet (b ++ [(k, v)]) k2
      = match objGet b k2 with
        | some r => some r
        | none => if k == k2 then some v else none := by
  induction b with
  | nil => simp [objGet_cons, objGet]
  | cons p b ih =>
    rw [List.cons_append, objGet_cons, objGet_cons]
    by_cases hp : p.1 = k2 <;> simp [hp, ih]

/-- Reading after a JS property write. -/
theorem objGet_objSet (b : Blocklist) (k k2 : String) (v : ShopRecord) :
    objGet (objSet b k v) k2 = if k2 == k then some v else objGet b k2 := by
  unfold objSet
  by_cases hin : keyIn k b = true
  · rw [if_pos hin, objGet_setMap, hin]
    all_goals simp
  · have habs : keyIn k b = false := by rwa [Bool.not_eq_true] at hin
    rw [if_neg hin, objGet_append_single]
    by_cases hk : k2 = k
    · subst hk
      rw [objGet_absent b k2 habs]
    · have : (k == k2) = false := beq_eq_false_iff_ne.mpr fun e => hk e.symm
      rw [this]
      cases objGet b k2 <;> simp [hk]

/-- Reading after a JS `delete`. -/
theorem objGet_objDelete (b : Blocklist) (k k2 : String) :
    objGet (objDelete b k) k2 = if k2 == k then none else objGet b k2 := by
  induction b with
  | nil => simp [objGet, objDelete]
  | cons p b ih =>
    unfold objDelete at ih ⊢
    rw [List.filter_cons]
    by_cases hp : p.1 = k <;> by_cases hk : k2 = k <;> by_cases hpk2 : p.1 = k2 <;>
      simp_all [objGet_cons]

/-- Reading after the in-place reason update. -/
theorem objGet_objUpdateReason (b : Blocklist) (k k2 rs : String) :
    objGet (objUpdateReason b k rs) k2
      = if k2 == k then (objGet b k2).map (fun r => { r with reason := rs })
        else objGet b k2 := by
  induction b with
  | nil => simp [objGet, objUpdateReason]
  | cons p b ih =>
    unfold objUpdateReason at ih ⊢
    rw [List.map_cons]
    by_cases hp : p.1 = k <;> by_cases hk : k2 = k <;> by_cases hpk2 : p.1 = k2 <;>
      simp_all [objGet_cons]

/-- A JS `delete` of an absent key returns the object unchanged. -/
theorem objDelete_of_absent (b : Blocklist) (k : String)
    (h : keyIn k b = false) : objDelete b k = b := by
  induction b with
  | nil => rfl
  | cons p b ih =>
    rw [keyIn_cons, Bool.or_eq_false_iff] at h
    unfold objDelete at ih ⊢
    rw [List.filter_cons]
    simp [h.1, ih h.2]

/-- Any event trace leaves the pipeline snapshot untouched and appends
exactly the discovered cards of its batches, each classified against that
snapshot. -/
theorem runPage_spec (es : List PageEvent) (s : PageState) :
    (runPage s es).pipelineSnapshot = s.pipelineSnapshot ∧
    (runPage s es).cards = s.cards ++
      ((es.map eventCards).flatten).map
        (fun c => processItemCard c (some s.pipelineSnapshot)) := by
  induction es generalizing s with
  | nil => simp [runPage]
  | cons e es ih =>
    have hstep : runPage s (e :: es) = runPage (pageStep s e) es := rfl
    cases e with
    | storageWrite v =>
      have h := ih (pageStep s (.storageWrite v))
      rw [hstep]
      refine ⟨h.1, ?_⟩
      rw [h.2]
      simp [pageStep, eventCards]
    | mutationBatch muts =>
      have h := ih (pageStep s (.mutationBatch muts))
      rw [hstep]
      refine ⟨h.1, ?_⟩
      rw [h.2]
      simp [pageStep, handleMutations, eventCards, List.map_append, List.append_assoc]

/-- Unfolding the state written by a successful `blockShop`. -/
theorem getAllBlocked_blockShop (st : StorageLocal) (k n rs : String) (now : Nat)
    (hget : st.getFails = false) (hset : st.setFails = false) :
    BoothShopStorage.getAllBlocked (BoothShopStorage.blockShop st k n rs now).1
      = objSet (BoothShopStorage.getAllBlocked st) k ⟨n, rs, now⟩ := by
  rw [BoothShopStorage.blockShop]
  simp only [hset, Bool.false_eq_true, if_false]
  rw [BoothShopStorage.getAllBlocked]
  simp [hget]

/-- Unfolding the state written by a successful `unblockShop`. -/
theorem getAllBlocked_unblockShop (st : StorageLocal) (k : String)
    (hget : st.getFails = false) (hset : st.setFails = false) :
    BoothShopStorage.getAllBlocked (BoothShopStorage.unblockShop st k).1
      = objDelete (BoothShopStorage.getAllBlocked st) k := by
  rw [BoothShopStorage.unblockShop]
  simp only [hset, Bool.false_eq_true, if_false]
  rw [BoothShopStorage.getAllBlocked]
  simp [hget]

/-- Lemma: `updateReason` on a present key writes the single-field update
back. -/
theorem updateReason_present (st : StorageLocal) (k rs : String)
    (hset : st.setFails = false)
    (h : objGet (BoothShopStorage.getAllBlocked st) k ≠ none) :
    BoothShopStorage.updateReason st k rs
      = ({ st with
            data := some (objUpdateReason (BoothShopStorage.getAllBlocked st) k rs) },
          true) := by
  rw [BoothShopStorage.updateReason]
  cases hv : objGet (BoothShopStorage.getAllBlocked st) k with
  | none => exact absurd hv h
  | some r => simp [hset]

/-- Lemma: `updateReason` on an absent key reports failure and writes
nothing. -/
theorem updateReason_absent (st : StorageLocal) (k rs : String)
    (h : objGet (BoothShopStorage.getAllBlocked st) k = none) :
    BoothShopStorage.updateReason st k rs = (st, false) := by
  rw [BoothShopStorage.updateReason, h]

/-- C2: the Identifier Extractor contract: whenever the URL parses and its
hostname matches `<id>.booth.pm`, the extractor returns `<id>` unless the
subdomain is the reserved `accounts` or `www` (then `none`); when the URL
fails to parse (relative or malformed input), or the hostname does not
match, or the input itself is `null`/`undefined`/empty, it returns `none`.
The function is total by construction — every input yields a value, there
is no error channel and no side effect. -/
theorem extractShopId_contract :
    (∀ u h id, jsURLHostname u = some h → hostMatch h = some id →
        extractShopId (some u)
          = if id == "accounts" || id == "www" then none else some id) ∧
    (∀ u, jsURLHostname u = none → extractShopId (some u) = none) ∧
    (∀ u h, jsURLHostname u = some h → hostMatch h = none →
        extractShopId (some u) = none) ∧
    extractShopId none = none ∧
    extractShopId (some "") = none := by
  refine ⟨?_, ?_, ?_, rfl, rfl⟩
  · intro u h id hj hm
    by_cases hu : u = ""
    · subst hu
      rw [show jsURLHostname "" = none by rfl] at hj
      cases hj
    · have hbe : (u == "") = false := beq_eq_false_iff_ne.mpr hu
      unfold extractShopId
      dsimp only
      rw [hbe, if_neg (by simp), hj]
      dsimp only
      rw [hm]
  · intro u hj
    by_cases hu : u = ""
    · subst hu; rfl
    · have hbe : (u == "") = false := beq_eq_false_iff_ne.mpr hu
      unfold extractShopId
      dsimp only
      rw [hbe, if_neg (by simp), hj]
  · intro u h hj hm
    by_cases hu : u = ""
    · subst hu; rfl
    · have hbe : (u == "") = false := beq_eq_false_iff_ne.mpr hu
      unfold extractShopId
      dsimp only
      rw [hbe, if_neg (by simp), hj]
      dsimp only
      rw [hm]

/-- Witness for C2 on concrete URLs: a regular shop URL resolves, the
reserved subdomain and a relative URL yield `none`. -/
theorem extractShopId_contract_witness :
    extractShopId (some "https://foo.booth.pm/items/123") = some "foo" ∧
    extractShopId (some "https://accounts.booth.pm/settings") = none ∧
    extractShopId (some "/items/123") = none := by
  refine ⟨?_, ?_, ?_⟩
  · have h := extractShopId_contract.1 "https://foo.booth.pm/items/123"
        "foo.booth.pm" "foo" (by decide) (by decide)
    rw [h]; decide
  · have h := extractShopId_contract.1 "https://accounts.booth.pm/settings"
        "accounts.booth.pm" "accounts" (by decide) (by decide)
    rw [h]; decide
  · exact extractShopId_contract.2.1 "/items/123" (by decide)

/-- C4: the Mutation Pipeline captures exactly one blocklist snapshot when
`observeNewItems` is set up and classifies every card discovered in every
later batch against that same setup-time value: over any event trace —
including interleaved writes to the persisted blocklist — the snapshot
never changes and the classified cards depend only on the setup-time
snapshot, never on the later persisted values. -/
theorem mutation_pipeline_fixed_snapshot (st : StorageLocal) (p0 : Blocklist)
    (cards0 : List ItemCard) (es : List PageEvent) :
    (runPage ⟨p0, observeNewItems st, cards0⟩ es).pipelineSnapshot
      = observeNewItems st ∧
    (runPage ⟨p0, observeNewItems st, cards0⟩ es).cards = cards0 ++
      ((es.map eventCards).flatten).map
        (fun c => processItemCard c (some (observeNewItems st))) :=
  runPage_spec es ⟨p0, observeNewItems st, cards0⟩

/-- C8: every persistence failure is absorbed inside the store operation
whose persistence call fails and surfaces only through the return value of
that operation: a failing read makes `getAllBlocked` return the empty
mapping, and a failing write makes `blockShop`, `unblockShop` and
`updateReason` return `false` with the persisted state untouched.  The
operations are total functions into plain result types — no exception can
propagate to a caller — and a failing call is evaluated exactly once (no
retry). -/
theorem storage_failures_absorbed :
    (∀ st : StorageLocal, st.getFails = true →
        BoothShopStorage.getAllBlocked st = []) ∧
    (∀ (st : StorageLocal) (sid n rs : String) (now : Nat), st.setFails = true →
        BoothShopStorage.blockShop st sid n rs now = (st, false)) ∧
    (∀ (st : StorageLocal) (sid : String), st.setFails = true →
        BoothShopStorage.unblockShop st sid = (st, false)) ∧
    (∀ (st : StorageLocal) (sid rs : String), st.setFails = true →
        BoothShopStorage.updateReason st sid rs = (st, false)) := by
  refine ⟨?_, ?_, ?_, ?_⟩
  · intro st h
    simp [BoothShopStorage.getAllBlocked, h]
  · intro st sid n rs now h
    simp [BoothShopStorage.blockShop, h]
  · intro st sid h
    simp [BoothShopStorage.unblockShop, h]
  · intro st sid rs h
    rw [BoothShopStorage.updateReason]
    cases objGet (BoothShopStorage.getAllBlocked st) sid <;> simp [h]

/-- Witness for C8 on concrete failing stores. -/
theorem storage_failures_absorbed_witness :
    BoothShopStorage.getAllBlocked ⟨some [("x", ⟨"n", "r", 1⟩)], true, false⟩ = [] ∧
    BoothShopStorage.blockShop ⟨some [], false, true⟩ "x" "n" "r" 0
      = (⟨some [], false, true⟩, false) ∧
    BoothShopStorage.unblockShop ⟨some [("x", ⟨"n", "r", 1⟩)], false, true⟩ "x"
      = (⟨some [("x", ⟨"n", "r", 1⟩)], false, true⟩, false) ∧
    BoothShopStorage.updateReason ⟨some [("x", ⟨"n", "r", 1⟩)], false, true⟩ "x" "r2"
      = (⟨some [("x", ⟨"n", "r", 1⟩)], false, true⟩, false) :=
  ⟨storage_failures_absorbed.1 _ rfl,
   storage_failures_absorbed.2.1 _ "x" "n" "r" 0 rfl,
   storage_failures_absorbed.2.2.1 _ "x" rfl,
   storage_failures_absorbed.2.2.2 _ "x" "r2" rfl⟩

/-- C7 counterexample: `blockShop` on an ALREADY-present shop id is an
operation other than `updateReason` that changes the stored name, reason
and timestamp of the record: re-blocking `x` replaces its whole record. -/
theorem blockShop_overwrites_existing_record :
    BoothShopStorage.getShopInfo ⟨some [("x", ⟨"n", "r", 5⟩)], false, false⟩ "x"
      = some ⟨"n", "r", 5⟩ ∧
    BoothShopStorage.getShopInfo
        (BoothShopStorage.blockShop ⟨some [("x", ⟨"n", "r", 5⟩)], false, false⟩
          "x" "n2" "r2" 9).1 "x"
      = some ⟨"n2", "r2", 9⟩ := by decide

/-- C7 (amended): record lifecycle under a non-failing store: a record is
created — or wholly replaced when the id was already present, the one
departure from "mutated only by reason-update" — by `blockShop`, destroyed
by `unblockShop`, and mutated by `updateReason`, which changes only the
`reason` field of the addressed record; operations addressed at a different
id never change the record stored under `sid`; `updateReason` on an absent
id returns `false` and leaves everything unchanged. -/
theorem shopRecord_mutation_discipline (st : StorageLocal) (sid : String)
    (hget : st.getFails = false) (hset : st.setFails = false) :
    (∀ (sid2 n rs : String) (now : Nat), sid2 ≠ sid →
        BoothShopStorage.getShopInfo
            (BoothShopStorage.blockShop st sid2 n rs now).1 sid
          = BoothShopStorage.getShopInfo st sid) ∧
    (∀ sid2 : String, sid2 ≠ sid →
        BoothShopStorage.getShopInfo (BoothShopStorage.unblockShop st sid2).1 sid
          = BoothShopStorage.getShopInfo st sid) ∧
    (∀ sid2 rs : String, sid2 ≠ sid →
        BoothShopStorage.getShopInfo (BoothShopStorage.updateReason st sid2 rs).1 sid
          = BoothShopStorage.getShopInfo st sid) ∧
    (∀ rs : String,
        BoothShopStorage.getShopInfo (BoothShopStorage.updateReason st sid rs).1 sid
          = (BoothShopStorage.getShopInfo st sid).map
              (fun r => { r with reason := rs })) ∧
    (∀ (n rs : String) (now : Nat),
        BoothShopStorage.getShopInfo (BoothShopStorage.blockShop st sid n rs now).1 sid
          = some ⟨n, rs, now⟩) ∧
    BoothShopStorage.getShopInfo (BoothShopStorage.unblockShop st sid).1 sid = none ∧
    (∀ rs : String, BoothShopStorage.getShopInfo st sid = none →
        BoothShopStorage.updateReason st sid rs = (st, false)) := by
  refine ⟨?_, ?_, ?_, ?_, ?_, ?_, ?_⟩
  · intro sid2 n rs now hne
    rw [BoothShopStorage.getShopInfo, getAllBlocked_blockShop st sid2 n rs now hget hset,
      objGet_objSet]
    rw [beq_eq_false_iff_ne.mpr (Ne.symm hne)]
    rfl
  · intro sid2 hne
    rw [BoothShopStorage.getShopInfo, getAllBlocked_unblockShop st sid2 hget hset,
      objGet_objDelete]
    rw [beq_eq_false_iff_ne.mpr (Ne.symm hne)]
    rfl
  · intro sid2 rs hne
    cases hv : objGet (BoothShopStorage.getAllBlocked st) sid2 with
    | none => rw [updateReason_absent st sid2 rs hv]
    | some r =>
      rw [updateReason_present st sid2 rs hset (by rw [hv]; exact fun h => by cases h)]
      rw [BoothShopStorage.getShopInfo, BoothShopStorage.getAllBlocked]
      simp only [hget, Bool.false_eq_true, if_false, Option.getD_some]
      rw [objGet_objUpdateReason, beq_eq_false_iff_ne.mpr (Ne.symm hne)]
      rfl
  · intro rs
    cases hv : objGet (BoothShopStorage.getAllBlocked st) sid with
    | none =>
      rw [updateReason_absent st sid rs hv]
      show BoothShopStorage.getShopInfo st sid
          = (BoothShopStorage.getShopInfo st sid).map (fun r => { r with reason := rs })
      rw [BoothShopStorage.getShopInfo, hv]
      rfl
    | some r =>
      rw [updateReason_present st sid rs hset (by rw [hv]; exact fun h => by cases h)]
      rw [BoothShopStorage.getShopInfo, BoothShopStorage.getAllBlocked]
      simp only [hget, Bool.false_eq_true, if_false, Option.getD_some]
      rw [objGet_objUpdateReason]
      simp [BoothShopStorage.getShopInfo]
  · intro n rs now
    rw [BoothShopStorage.getShopInfo, getAllBlocked_blockShop st sid n rs now hget hset,
      objGet_objSet]
    simp
  · rw [BoothShopStorage.getShopInfo, getAllBlocked_unblockShop st sid hget hset,
      objGet_objDelete]
    simp
  · intro rs hv
    exact updateReason_absent st sid rs hv

/-- Witness for the amended C7 theorem on concrete stores. -/
theorem shopRecord_mutation_discipline_witness :
    BoothShopStorage.getShopInfo
        (BoothShopStorage.unblockShop ⟨some [("x", ⟨"n", "r", 5⟩)], false, false⟩ "x").1 "x"
      = none ∧
    BoothShopStorage.getShopInfo
        (BoothShopStorage.updateReason ⟨some [("x", ⟨"n", "r", 5⟩)], false, false⟩
          "x" "r2").1 "x"
      = (BoothShopStorage.getShopInfo ⟨some [("x", ⟨"n", "r", 5⟩)], false, false⟩ "x").map
          (fun r => { r with reason := "r2" }) ∧
    BoothShopStorage.getShopInfo
        (BoothShopStorage.blockShop ⟨some [("y", ⟨"m", "s", 1⟩)], false, false⟩
          "x" "n" "r" 7).1 "x"
      = some ⟨"n", "r", 7⟩ := by
  refine ⟨?_, ?_, ?_⟩
  · exact (shopRecord_mutation_discipline
      ⟨some [("x", ⟨"n", "r", 5⟩)], false, false⟩ "x" rfl rfl).2.2.2.2.2.1
  · exact (shopRecord_mutation_discipline
      ⟨some [("x", ⟨"n", "r", 5⟩)], false, false⟩ "x" rfl rfl).2.2.2.1 "r2"
  · exact (shopRecord_mutation_discipline
      ⟨some [("y", ⟨"m", "s", 1⟩)], false, false⟩ "x" rfl rfl).2.2.2.2.1 "n" "r" 7

/-- C10: `unblockShop` on an absent key (with the write not failing)
returns `true` and leaves the blocklist mapping equal to its prior value,
and it also returns `true` for present keys — callers cannot distinguish
the two cases from the returned boolean. -/
theorem unblockShop_absent_key (st : StorageLocal) (sid : String)
    (hset : st.setFails = false)
    (habs : keyIn sid (BoothShopStorage.getAllBlocked st) = false) :
    (BoothShopStorage.unblockShop st sid).2 = true ∧
    BoothShopStorage.getAllBlocked (BoothShopStorage.unblockShop st sid).1
      = BoothShopStorage.getAllBlocked st ∧
    (∀ (st2 : StorageLocal) (sid2 : String), st2.setFails = false →
        (BoothShopStorage.unblockShop st2 sid2).2 = true) := by
  have hdel := objDelete_of_absent _ sid habs
  refine ⟨?_, ?_, ?_⟩
  · simp [BoothShopStorage.unblockShop, hset]
  · cases hg : st.getFails with
    | true =>
      simp [BoothShopStorage.unblockShop, BoothShopStorage.getAllBlocked, hset, hg]
    | false =>
      rw [BoothShopStorage.unblockShop]
      simp only [hset, Bool.false_eq_true, if_false]
      rw [hdel, BoothShopStorage.getAllBlocked]
      simp [hg]
  · intro st2 sid2 h2
    simp [BoothShopStorage.unblockShop, h2]

/-- Witness for C10: deleting the absent key `x` from a store holding only
`y` succeeds and leaves the mapping unchanged. -/
theorem unblockShop_absent_key_witness :
    (BoothShopStorage.unblockShop ⟨some [("y", ⟨"Y", "", 2⟩)], false, false⟩ "x").2
      = true ∧
    BoothShopStorage.getAllBlocked
        (BoothShopStorage.unblockShop ⟨some [("y", ⟨"Y", "", 2⟩)], false, false⟩ "x").1
      = BoothShopStorage.getAllBlocked ⟨some [("y", ⟨"Y", "", 2⟩)], false, false⟩ := by
  have h := unblockShop_absent_key ⟨some [("y", ⟨"Y", "", 2⟩)], false, false⟩ "x" rfl
    (by decide)
  exact ⟨h.1, h.2.1⟩
